import Mathlib

/-!
Shallow embedding of the `ouro-rs` RTP/RTCP codec (src/rtp.rs, src/rtcp.rs).

Byte buffers are modelled as `List Nat` (each element one octet, < 256 for
real inputs).  Machine arithmetic on `u8`/`u16`/`u32`/`usize` is modelled on
`Nat` with explicit `% 2^w` exactly where the Rust code can wrap.  A Rust
slice index that may be out of bounds (a panic) is modelled through `Option`;
indices that the source has already bounds-checked at the point of the read
are modelled with `List.getD`, which agrees with the Rust access on the
checked domain.
-/

set_option maxRecDepth 4096

namespace Ouro

/-- `u16::from_be_bytes [a, b]`: big-endian 16-bit value from two octets. -/
def be16 (a b : Nat) : Nat := a * 256 + b

/-- `u32::from_be_bytes [a, b, c, d]`: big-endian 32-bit value. -/
def be32 (a b c d : Nat) : Nat := ((a * 256 + b) * 256 + c) * 256 + d

namespace Rtp

/-- `enum RtpError` from src/rtp.rs. -/
inductive RtpError where
  | InvalidLen (n : Nat)
  | InvalidVersion (v : Nat)
  | InvalidCSRCCount (c : Nat)
  | MissingExtension
  | InvalidExtensionLength (n : Nat)
  | InvalidPadding (n : Nat)
deriving DecidableEq

/-- `struct RtpExtension` from src/rtp.rs (`head: u16`, `data: &[u8]`). -/
structure RtpExtension where
  head : Nat
  data : List Nat
deriving DecidableEq

/-- `struct RtpPacket` from src/rtp.rs.  The `csrc` field is the `[u32; 15]`
array, modelled as a list of length 15. -/
structure RtpPacket where
  cc : Nat
  payload_type : Nat
  seq_number : Nat
  timestamp : Nat
  ssrc : Nat
  csrc : List Nat
  extension : Option RtpExtension
  payload : List Nat
  mark : Bool
deriving DecidableEq

/-- `RtpPacket::HEADER_SIZE`. -/
def HEADER_SIZE : Nat := 12

/-- `RtpPacket::RTP_VERSION`. -/
def RTP_VERSION : Nat := 2

/-- `RtpPacket::new` from src/rtp.rs lines 39-58. -/
def RtpPacket.new (mark : Bool) (payload_type seq_number timestamp ssrc : Nat)
    (payload : List Nat) : RtpPacket :=
  { cc := 0
    payload_type := payload_type
    seq_number := seq_number
    timestamp := timestamp
    ssrc := ssrc
    csrc := List.replicate 15 0
    extension := none
    payload := payload
    mark := mark }

/-- One iteration of the CSRC loop in `RtpPacket::from_slice` (src/rtp.rs
lines 74-77).  The source computes `csrc_off = off + cc*4` inside the loop
(the loop variable `index` is not used in the offset) and reads four bytes
there; an out-of-bounds read is a Rust panic, modelled as `none`. -/
def csrcStep (slice : List Nat) (csrc_off : Nat) (acc : Option (List Nat))
    (index : Nat) : Option (List Nat) :=
  match acc with
  | none => none
  | some csrc =>
    match slice[csrc_off]?, slice[csrc_off + 1]?, slice[csrc_off + 2]?,
        slice[csrc_off + 3]? with
    | some a, some b, some c, some d => some (csrc.set index (be32 a b c d))
    | _, _, _, _ => none

/-- The whole CSRC loop `for index in 0..cc` of `RtpPacket::from_slice`,
starting from the `[0u32; 15]` array. -/
def csrcLoop (slice : List Nat) (off cc : Nat) : Option (List Nat) :=
  List.foldl (csrcStep slice (off + cc * 4)) (some (List.replicate 15 0))
    (List.range cc)

/-- The data `RtpPacket::from_slice` has in hand when it reaches the padding
handling at src/rtp.rs line 98. -/
structure RtpPre where
  cc : Nat
  pad_flag : Nat
  csrc : List Nat
  off : Nat
  extension : Option RtpExtension
deriving DecidableEq

/-- Outcome of the part of `RtpPacket::from_slice` before padding handling. -/
inductive RtpPreResult where
  | panic
  | err (e : RtpError)
  | ok (info : RtpPre)
deriving DecidableEq

/-- Outcome of `RtpPacket::from_slice`: a Rust panic, `Err`, or `Ok`. -/
inductive RtpResult where
  | panic
  | err (e : RtpError)
  | ok (p : RtpPacket)
deriving DecidableEq

/-- src/rtp.rs lines 60-97: length check, version check, field extraction
from byte 0, the CSRC loop, the CSRC-count check and extension parsing.
All `slice.getD` reads here are bounds-checked in the source before they
happen (`slice_len ≥ 12`, `off + 4 ≤ slice_len`, `off + ext_len ≤
slice_len`); the only possibly out-of-bounds reads are in `csrcLoop`. -/
def preParse (slice : List Nat) : RtpPreResult :=
  let slice_len := slice.length
  if slice_len < HEADER_SIZE then .err (.InvalidLen slice_len) else
  let version := slice.getD 0 0 >>> 6
  if version ≠ RTP_VERSION then .err (.InvalidVersion version) else
  let cc := slice.getD 0 0 &&& 0x0F
  let pad_flag := (slice.getD 0 0 &&& 0x20) >>> 5
  let off := HEADER_SIZE + cc * 4
  match csrcLoop slice off cc with
  | none => .panic
  | some csrc =>
    if off > slice_len then .err (.InvalidCSRCCount cc) else
    if (slice.getD 0 0 &&& 0x10) ≠ 0 then
      if off + 4 > slice_len then .err .MissingExtension else
      let ext_len := (be16 (slice.getD (off + 2) 0) (slice.getD (off + 3) 0)) * 4 + 4
      if off + ext_len > slice_len then .err (.InvalidExtensionLength ext_len) else
      .ok { cc := cc
            pad_flag := pad_flag
            csrc := csrc
            off := off + ext_len
            extension := some { head := be16 (slice.getD off 0) (slice.getD (off + 1) 0)
                                data := (slice.drop (off + 4)).take (ext_len - 4) } }
    else
      .ok { cc := cc, pad_flag := pad_flag, csrc := csrc, off := off, extension := none }

/-- src/rtp.rs lines 98-113: padding handling and packet assembly.
`pad_len` is `slice[slice_len - 1] * pad_flag` (a `u8` product that cannot
wrap since `pad_flag ≤ 1`); the payload is `&slice[off..(slice_len -
pad_len)]`. -/
def finish (slice : List Nat) (info : RtpPre) : RtpResult :=
  let slice_len := slice.length
  let pad_len := slice.getD (slice_len - 1) 0 * info.pad_flag
  if info.off + pad_len > slice_len then .err (.InvalidPadding pad_len) else
  .ok { cc := info.cc
        payload_type := slice.getD 1 0 &&& 0x7F
        seq_number := be16 (slice.getD 2 0) (slice.getD 3 0)
        timestamp := be32 (slice.getD 4 0) (slice.getD 5 0) (slice.getD 6 0) (slice.getD 7 0)
        ssrc := be32 (slice.getD 8 0) (slice.getD 9 0) (slice.getD 10 0) (slice.getD 11 0)
        csrc := info.csrc
        extension := info.extension
        payload := (slice.drop info.off).take (slice_len - pad_len - info.off)
        mark := (slice.getD 1 0 &&& 0x80) != 0 }

/-- `RtpPacket::from_slice` from src/rtp.rs lines 60-114, the composition of
`preParse` and `finish`. -/
def from_slice (slice : List Nat) : RtpResult :=
  match preParse slice with
  | .panic => .panic
  | .err e => .err e
  | .ok info => finish slice info

/-- Modelled from the spec: the repository's source has no RTP serializer
(spec section 8's round-trip property speaks of "encoding then decoding", but
only the constructor `RtpPacket::new` exists under src/).  This encodes a
packet produced by `RtpPacket.new` (version 2, no padding, no extension,
`csrc_count = 0`) to wire bytes following the spec's section 6 wire format:
byte 0 carries version 2 in bits 7:6 and zero flag/count bits, byte 1 carries
the marker in bit 7 and the payload type in bits 6:0, then big-endian
sequence number (2 bytes), timestamp (4 bytes), SSRC (4 bytes), then the
payload. -/
def encode (p : RtpPacket) : List Nat :=
  128 :: ((cond p.mark 128 0) + p.payload_type) ::
  (p.seq_number / 256 % 256) :: (p.seq_number % 256) ::
  (p.timestamp / 16777216 % 256) :: (p.timestamp / 65536 % 256) ::
  (p.timestamp / 256 % 256) :: (p.timestamp % 256) ::
  (p.ssrc / 16777216 % 256) :: (p.ssrc / 65536 % 256) ::
  (p.ssrc / 256 % 256) :: (p.ssrc % 256) :: p.payload

/-- `struct RtpPacketizer` from src/rtp.rs lines 143-149.  `seq_number` and
`timestamp` are randomly initialized by `RtpPacketizer::new`; the embedding
takes the whole state as input instead of modelling the random source. -/
structure RtpPacketizer where
  mtu : Nat
  payload_type : Nat
  seq_number : Nat
  timestamp : Nat
  ssrc : Nat
deriving DecidableEq

/-- The `for index in 0..chunk_count` loop of `RtpPacketizer::packetize`
(src/rtp.rs lines 174-187): at each step the sequence number is incremented
with `u16` wraparound and one packet is pushed whose payload is
`&payload[off..off + span]`.  Returns the emitted packets together with the
final sequence number.  The first argument counts the iterations still to
run (it is `chunk_count - index`; `packetize` passes `chunk_count` with
`index = 0`), so the recursion is structural. -/
def packetizeGo (payload : List Nat) (pt ts ssrc chunk_size chunk_count : Nat) :
    Nat → Nat → Nat → List RtpPacket × Nat
  | 0, _, seq => ([], seq)
  | fuel + 1, index, seq =>
    if index < chunk_count then
      let seq2 := (seq + 1) % 65536
      let off := chunk_size * index
      let span := min chunk_size (payload.length - off)
      let rest := packetizeGo payload pt ts ssrc chunk_size chunk_count fuel
        (index + 1) seq2
      (RtpPacket.new (index == chunk_count - 1) pt seq2 ts ssrc
          ((payload.drop off).take span) :: rest.1,
        rest.2)
    else ([], seq)

/-- `RtpPacketizer::packetize` from src/rtp.rs lines 167-189.  The timestamp
advances by `frames` with `u32` wraparound; `chunk_size = self.mtu -
HEADER_SIZE` (the caller is expected to pass `mtu ≥ 12`; a smaller value is
a `usize` underflow in the source); `chunk_count =
payload.len().div_ceil(chunk_size)`, and `usize::div_ceil` panics when
`chunk_size = 0`, modelled as `none`. -/
def packetize (st : RtpPacketizer) (payload : List Nat) (frames : Nat) :
    Option (List RtpPacket × RtpPacketizer) :=
  let timestamp := (st.timestamp + frames) % 4294967296
  let chunk_size := st.mtu - HEADER_SIZE
  if chunk_size = 0 then none else
  let chunk_count := (payload.length + chunk_size - 1) / chunk_size
  let r := packetizeGo payload st.payload_type timestamp st.ssrc chunk_size
    chunk_count chunk_count 0 st.seq_number
  some (r.1,
    { mtu := st.mtu, payload_type := st.payload_type, seq_number := r.2,
      timestamp := timestamp, ssrc := st.ssrc })

/-- A sequence of `packetize` calls on one `RtpPacketizer` instance, threading
the mutable state; collects every emitted packet in order.  A panic in any
call (modelled `none`) aborts the run. -/
def packetizeRun (st : RtpPacketizer) :
    List (List Nat × Nat) → Option (List RtpPacket × RtpPacketizer)
  | [] => some ([], st)
  | input :: rest =>
    match packetize st input.1 input.2 with
    | none => none
    | some r =>
      match packetizeRun r.2 rest with
      | none => none
      | some r2 => some (r.1 ++ r2.1, r2.2)

end Rtp

namespace Rtcp

/-- `enum RtcpError` from src/rtcp.rs. -/
inductive RtcpError where
  | InvalidLen (n : Nat)
  | InvalidVersion (v : Nat)
  | InvalidPadding (n : Nat)
  | PacketTooShort (c : Nat)
deriving DecidableEq

/-- `struct RtcpPacket` from src/rtcp.rs. -/
structure RtcpPacket where
  cc : Nat
  payload_type : Nat
  length : Nat
  payload : List Nat
deriving DecidableEq

/-- `RtcpPacket::HEADER_SIZE`. -/
def HEADER_SIZE : Nat := 4

/-- `RtcpPacket::VERSION` from src/rtcp.rs line 185: the source defines it as
`2 << 6`, that is 128. -/
def VERSION : Nat := 2 <<< 6

/-- `RtcpPacket::from_slice` from src/rtcp.rs lines 199-226.  Every slice
read is bounds-checked in the source before it happens, so no panic outcome
is needed. -/
def from_slice (slice : List Nat) : Except RtcpError RtcpPacket :=
  let slice_len := slice.length
  if slice_len < HEADER_SIZE then .error (.InvalidLen slice_len) else
  let version := slice.getD 0 0 >>> 6
  if version ≠ VERSION then .error (.InvalidVersion version) else
  let cc := slice.getD 0 0 &&& 0x0F
  let pad_flag := (slice.getD 0 0 &&& 0x20) >>> 5
  let off := HEADER_SIZE + cc * 24 + 24
  if off > slice_len then .error (.PacketTooShort cc) else
  let pad_len := slice.getD (slice_len - 1) 0 * pad_flag
  if off + pad_len > slice_len then .error (.InvalidPadding pad_len) else
  .ok { cc := cc
        payload_type := slice.getD 1 0 &&& 0x7F
        length := be16 (slice.getD 2 0) (slice.getD 3 0)
        payload := (slice.drop off).take (slice_len - pad_len - off) }

end Rtcp

/-- A 32-byte RTP buffer with version 2, `csrc_count = 2`, no flags: bytes
12..19 hold the two CSRC entries `0x01020304` and `0x00000000` per the wire
format, while bytes 28..31 hold `0xAABBCCDD` inside the payload region. -/
def c3buf : List Nat :=
  [130, 96, 0, 0, 0, 0, 0, 0, 0, 0, 0, 0,
   1, 2, 3, 4, 0, 0, 0, 0, 0, 0, 0, 0, 0, 0, 0, 0, 170, 187, 204, 221]

end Ouro

namespace Ouro

/-- The padding flag extracted from byte 0 is 0 or 1, whatever the byte. -/
lemma pad_flag_zero_or_one (b : Nat) : (b &&& 0x20) >>> 5 = 0 ∨ (b &&& 0x20) >>> 5 = 1 := by
  have h : b &&& 32 = (b.testBit 5).toNat * 32 := by
    have := Nat.and_two_pow b 5
    norm_num at this
    exact this
  rw [h]
  cases b.testBit 5 <;> simp

/-- When the RTP pre-parse succeeds, the buffer holds at least the fixed
header, the accumulated offset is within the buffer, and the recorded
padding flag is the one extracted from byte 0. -/
lemma preParse_ok_facts (slice : List Nat) (info : Rtp.RtpPre)
    (h : Rtp.preParse slice = .ok info) :
    12 ≤ slice.length ∧ info.off ≤ slice.length ∧
      info.pad_flag = (slice.getD 0 0 &&& 0x20) >>> 5 := by
  simp only [Rtp.preParse, Rtp.HEADER_SIZE, Rtp.RTP_VERSION] at h
  split at h
  · exact absurd h (by simp)
  next h1 =>
  split at h
  · exact absurd h (by simp)
  next h2 =>
  split at h
  · exact absurd h (by simp)
  next csrc hcs =>
  split at h
  · exact absurd h (by simp)
  next h3 =>
  split at h
  · split at h
    · exact absurd h (by simp)
    next h4 =>
    split at h
    · exact absurd h (by simp)
    next h5 =>
    cases h
    refine ⟨by omega, by simp only; omega, rfl⟩
  · cases h
    refine ⟨by omega, by simp only; omega, rfl⟩

namespace Rtp

/-- Evaluation of the decoder on a buffer whose byte 0 is exactly `0x80`
(version 2, no flags, `csrc_count = 0`). -/
lemma from_slice_simple (b1 s1 s0 t3 t2 t1 t0 c3 c2 c1 c0 : Nat) (payload : List Nat) :
    from_slice (128 :: b1 :: s1 :: s0 :: t3 :: t2 :: t1 :: t0 :: c3 :: c2 :: c1 :: c0 :: payload) =
      .ok { cc := 0, payload_type := b1 &&& 127, seq_number := be16 s1 s0,
            timestamp := be32 t3 t2 t1 t0, ssrc := be32 c3 c2 c1 c0,
            csrc := List.replicate 15 0, extension := none, payload := payload,
            mark := (b1 &&& 128) != 0 } := by
  have hlen : (128 :: b1 :: s1 :: s0 :: t3 :: t2 :: t1 :: t0 :: c3 :: c2 :: c1 :: c0 :: payload).length
      = payload.length + 12 := by
    simp [List.length_cons]
  have hpre : preParse (128 :: b1 :: s1 :: s0 :: t3 :: t2 :: t1 :: t0 :: c3 :: c2 :: c1 :: c0 :: payload)
      = .ok { cc := 0, pad_flag := 0, csrc := List.replicate 15 0, off := 12, extension := none } := by
    simp only [preParse, hlen, HEADER_SIZE, RTP_VERSION, csrcLoop,
      show (128:Nat) >>> 6 = 2 from rfl, show (128:Nat) &&& 15 = 0 from rfl,
      show (128:Nat) &&& 32 = 0 from rfl, show (128:Nat) &&& 16 = 0 from rfl,
      show (0:Nat) >>> 5 = 0 from rfl, List.getD_cons_zero,
      List.range_zero, List.foldl_nil, Nat.mul_zero, Nat.add_zero]
    norm_num
  simp only [from_slice, hpre, finish, hlen, Nat.mul_zero, Nat.add_zero, Nat.sub_zero]
  norm_num [List.getD_cons_zero, List.getD_cons_succ]

/-- Complete characterization of the packetize loop, provided the fuel covers
the remaining iterations: the emitted list has one packet per remaining
chunk; the `n`-th emitted packet carries sequence number `seq + n + 1` modulo
65536, the marker exactly on the final chunk, and the `n`-th payload chunk;
and the final sequence number is `seq` advanced by the iteration count,
modulo 65536. -/
lemma packetizeGo_spec (payload : List Nat) (pt ts ssrc cs cnt : Nat) :
    ∀ fuel index seq, cnt ≤ index + fuel →
      (packetizeGo payload pt ts ssrc cs cnt fuel index seq).1.length = cnt - index ∧
      (∀ n, n < cnt - index →
        (packetizeGo payload pt ts ssrc cs cnt fuel index seq).1[n]? =
          some (RtpPacket.new (index + n == cnt - 1) pt ((seq + n + 1) % 65536) ts ssrc
            ((payload.drop (cs * (index + n))).take
              (min cs (payload.length - cs * (index + n)))))) ∧
      (packetizeGo payload pt ts ssrc cs cnt fuel index seq).2 % 65536 =
        (seq + (cnt - index)) % 65536 := by
  intro fuel
  induction fuel with
  | zero =>
    intro index seq h
    simp only [packetizeGo, List.length_nil]
    refine ⟨by omega, ?_, ?_⟩
    · intro n hn; omega
    · omega
  | succ fuel ih =>
    intro index seq h
    by_cases hlt : index < cnt
    · obtain ⟨hl, hg, hs⟩ := ih (index + 1) ((seq + 1) % 65536) (by omega)
      simp only [packetizeGo, if_pos hlt, List.length_cons, hl]
      refine ⟨by omega, ?_, ?_⟩
      · intro n hn
        cases n with
        | zero =>
          simp only [List.getElem?_cons_zero]
          norm_num
        | succ n =>
          simp only [List.getElem?_cons_succ]
          rw [hg n (by omega)]
          have h1 : index + 1 + n = index + (n + 1) := by omega
          have h2 : ((seq + 1) % 65536 + n + 1) % 65536 = (seq + (n + 1) + 1) % 65536 := by
            omega
          rw [h1, h2]
      · omega
    · simp only [packetizeGo, if_neg hlt, List.length_nil]
      refine ⟨by omega, ?_, ?_⟩
      · intro n hn; omega
      · omega

/-- Complete characterization of one successful `packetize` call: the number
of packets is `div_ceil` of the payload length by `mtu - 12`; the `n`-th
packet carries the next sequence numbers in order, the marker exactly on the
last packet, the advanced timestamp and the `n`-th payload chunk; and the
updated state advances the sequence number by the packet count modulo 65536,
leaving `mtu`, `payload_type` and `ssrc` unchanged. -/
lemma packetize_spec (st : RtpPacketizer) (payload : List Nat) (frames : Nat)
    (qs : List RtpPacket) (st2 : RtpPacketizer)
    (h : packetize st payload frames = some (qs, st2)) :
    qs.length = (payload.length + (st.mtu - 12) - 1) / (st.mtu - 12) ∧
    (∀ n, n < qs.length →
      qs[n]? = some (RtpPacket.new (n == qs.length - 1) st.payload_type
        ((st.seq_number + n + 1) % 65536) ((st.timestamp + frames) % 4294967296)
        st.ssrc
        ((payload.drop ((st.mtu - 12) * n)).take
          (min (st.mtu - 12) (payload.length - (st.mtu - 12) * n))))) ∧
    st2.seq_number % 65536 = (st.seq_number + qs.length) % 65536 ∧
    st2.mtu = st.mtu ∧ st2.payload_type = st.payload_type ∧ st2.ssrc = st.ssrc ∧
    st.mtu - 12 ≠ 0 := by
  simp only [packetize, HEADER_SIZE] at h
  by_cases hcs : st.mtu - 12 = 0
  · rw [if_pos hcs] at h
    exact absurd h (by simp)
  · rw [if_neg hcs] at h
    simp only [Option.some.injEq, Prod.mk.injEq] at h
    obtain ⟨hq, hst⟩ := h
    obtain ⟨gl, gg, gs⟩ := packetizeGo_spec payload st.payload_type
      ((st.timestamp + frames) % 4294967296) st.ssrc (st.mtu - 12)
      ((payload.length + (st.mtu - 12) - 1) / (st.mtu - 12))
      ((payload.length + (st.mtu - 12) - 1) / (st.mtu - 12)) 0 st.seq_number
      (by omega)
    rw [Nat.sub_zero] at gl gs
    subst hq
    refine ⟨gl, ?_, ?_, ?_, ?_, ?_, hcs⟩
    · intro n hn
      rw [gl] at hn
      have := gg n (by omega)
      rw [Nat.zero_add] at this
      rw [this, gl]
    · rw [← hst, gl]
      exact gs
    · rw [← hst]
    · rw [← hst]
    · rw [← hst]

/-- Sequence numbers across a whole run of `packetize` calls on one
instance: the `n`-th packet emitted anywhere in the run carries sequence
number `seq_number + n + 1` modulo 65536, and the final state has advanced
the sequence number by the total packet count. -/
lemma packetizeRun_spec :
    ∀ (inputs : List (List Nat × Nat)) (st : RtpPacketizer) (ps : List RtpPacket)
      (st2 : RtpPacketizer), packetizeRun st inputs = some (ps, st2) →
      (∀ n, n < ps.length →
        ∃ p, ps[n]? = some p ∧ p.seq_number = (st.seq_number + n + 1) % 65536) ∧
      st2.seq_number % 65536 = (st.seq_number + ps.length) % 65536 := by
  intro inputs
  induction inputs with
  | nil =>
    intro st ps st2 h
    simp only [packetizeRun, Option.some.injEq, Prod.mk.injEq] at h
    obtain ⟨hps, hst⟩ := h
    subst hps
    rw [← hst]
    exact ⟨fun n hn => absurd hn (by simp), by simp⟩
  | cons input rest ih =>
    intro st ps st2 h
    simp only [packetizeRun] at h
    cases hp : packetize st input.1 input.2 with
    | none => rw [hp] at h; exact absurd h (by simp)
    | some r =>
      rw [hp] at h
      dsimp only at h
      cases hr : packetizeRun r.2 rest with
      | none => rw [hr] at h; exact absurd h (by simp)
      | some r2 =>
        rw [hr] at h
        simp only [Option.some.injEq, Prod.mk.injEq] at h
        obtain ⟨hps, hst⟩ := h
        obtain ⟨-, pget, pseq, -, -, -, -⟩ :=
          packetize_spec st input.1 input.2 r.1 r.2 (by rw [hp])
        obtain ⟨rget, rseq⟩ := ih r.2 r2.1 r2.2 (by rw [hr])
        subst hps
        constructor
        · intro n hn
          rw [List.length_append] at hn
          by_cases hsplit : n < r.1.length
          · have h1 : (r.1 ++ r2.1)[n]? = r.1[n]? := by
              rw [List.getElem?_append, if_pos hsplit]
            exact ⟨_, h1.trans (pget n hsplit), by simp [RtpPacket.new]⟩
          · obtain ⟨p, hp1, hp2⟩ := rget (n - r.1.length) (by omega)
            refine ⟨p, ?_, ?_⟩
            · rw [List.getElem?_append, if_neg hsplit]
              exact hp1
            · rw [hp2]
              omega
        · rw [← hst, List.length_append]
          omega

end Rtp

end Ouro

/-- Claim C1: the claim states `RtpPacket::from_slice` never crashes or reads
out of bounds, and returns `InvalidCSRCCount(csrc_count)` whenever `12 +
csrc_count*4` exceeds the buffer length.  On this 13-byte buffer with
`csrc_count = 1` (so `12 + 4 = 16 > 13`) the source's CSRC loop runs before
the bounds check and reads `slice[20..24]`, out of bounds: a Rust panic, not
the claimed error. -/
theorem rtp_from_slice_csrc_overread_panics :
    Ouro.Rtp.from_slice (129 :: List.replicate 12 0) = .panic := by decide

/-- Claim C2: the claim states a buffer of length ≥ 4 whose top 2 bits of
byte 0 equal 2 is never rejected for its version.  The source compares the
2-bit version (at most 3) against `VERSION = 2 << 6 = 128`, so this buffer
with version bits `10` is rejected with `InvalidVersion(2)`. -/
theorem rtcp_from_slice_rejects_version_two :
    Ouro.Rtcp.from_slice [128, 0, 0, 0] = .error (.InvalidVersion 2) := by rfl

/-- Claim C3: the claim states the i-th decoded CSRC entry equals the
big-endian 32-bit value at bytes `12 + 4*i`.  On `c3buf` (accepted, with
`csrc_count = 2`) entry 0 instead equals the value read at bytes 28..31
(`off + cc*4` with the loop index unused), not the value at bytes 12..15. -/
theorem rtp_from_slice_csrc_misread :
    ∃ p, Ouro.Rtp.from_slice Ouro.c3buf = .ok p ∧
      p.csrc.getD 0 0 = Ouro.be32 (Ouro.c3buf.getD 28 0) (Ouro.c3buf.getD 29 0)
        (Ouro.c3buf.getD 30 0) (Ouro.c3buf.getD 31 0) ∧
      p.csrc.getD 0 0 ≠ Ouro.be32 (Ouro.c3buf.getD 12 0) (Ouro.c3buf.getD 13 0)
        (Ouro.c3buf.getD 14 0) (Ouro.c3buf.getD 15 0) := by
  refine ⟨_, rfl, by decide, by decide⟩

/-- Claim C4 counterexample: the claim states any `mtu ≥ 12` never fails, and
a zero-length payload yields zero packets.  At `mtu = 12` exactly,
`chunk_size = mtu - 12 = 0` and `payload.len().div_ceil(0)` is a division by
zero — a Rust panic (modelled `none`) even for the empty payload. -/
theorem rtp_packetize_mtu12_panics :
    Ouro.Rtp.packetize ⟨12, 96, 0, 0, 0⟩ [] 0 = none := by rfl

/-- Claim C8: the claim states RTCP decode reads `report_count` from the
5-bit field of byte 0 and fails with `PacketTooShort(report_count)` exactly
when `4 + report_count*24 + 24` exceeds the buffer length.  On this 4-byte
buffer with count field 1 (`payload_offset = 52 > 4`) the source instead
fails with `InvalidVersion(2)`: the version comparison against `2 << 6 = 128`
can never succeed, so `PacketTooShort` is unreachable (and the source masks
byte 0 with `0x0F`, a 4-bit field, not 5). -/
theorem rtcp_from_slice_no_packet_too_short :
    Ouro.Rtcp.from_slice [129, 200, 0, 0] = .error (.InvalidVersion 2) := by rfl

/-- Claim C9: decoding the 25-byte concrete scenario buffer succeeds with
`cc = 0`, `marker = true`, `payload_type = 96`, `sequence_number = 27023`,
`timestamp = 3653407706`, `ssrc = 476325762`, an extension with exactly 4
data bytes, and a 5-byte payload. -/
theorem rtp_from_slice_concrete_scenario :
    ∃ p, Ouro.Rtp.from_slice
        [0x90, 0xe0, 0x69, 0x8f, 0xd9, 0xc2, 0x93, 0xda, 0x1c, 0x64,
         0x27, 0x82, 0x00, 0x01, 0x00, 0x01, 0xFF, 0xFF, 0xFF, 0xFF,
         0x98, 0x36, 0xbe, 0x88, 0x9e] = .ok p ∧
      p.cc = 0 ∧ p.mark = true ∧ p.payload_type = 96 ∧ p.seq_number = 27023 ∧
      p.timestamp = 3653407706 ∧ p.ssrc = 476325762 ∧
      (∃ e, p.extension = some e ∧ e.data.length = 4) ∧
      p.payload.length = 5 := by
  exact ⟨_, rfl, rfl, rfl, rfl, rfl, rfl, rfl, ⟨_, rfl, rfl⟩, rfl⟩

/-- Claim C6: on any buffer that passes every check before padding handling
(`preParse` succeeds with data `info`), decode fails with `InvalidPadding m`
iff the padding flag is set, `m` is the buffer's last byte, and `m` exceeds
the bytes remaining after the fixed header, CSRC list and extension region;
otherwise decode succeeds and the payload excludes exactly the declared
padding bytes. -/
theorem rtp_from_slice_padding_exactness (slice : List Nat) (info : Ouro.Rtp.RtpPre)
    (m : Nat) (hpre : Ouro.Rtp.preParse slice = .ok info) :
    (Ouro.Rtp.from_slice slice = .err (.InvalidPadding m) ↔
      (info.pad_flag = 1 ∧ m = slice.getD (slice.length - 1) 0 ∧
        slice.length - info.off < m)) ∧
    (m = slice.getD (slice.length - 1) 0 * info.pad_flag →
      m ≤ slice.length - info.off →
      ∃ p, Ouro.Rtp.from_slice slice = .ok p ∧
        p.payload = (slice.drop info.off).take (slice.length - m - info.off) ∧
        p.payload.length = slice.length - info.off - m) := by
  obtain ⟨h12, hoff, hpf⟩ := Ouro.preParse_ok_facts slice info hpre
  have hpf01 : info.pad_flag = 0 ∨ info.pad_flag = 1 := by
    rw [hpf]; exact Ouro.pad_flag_zero_or_one _
  have hfs : Ouro.Rtp.from_slice slice = Ouro.Rtp.finish slice info := by
    unfold Ouro.Rtp.from_slice; rw [hpre]
  rw [hfs]
  rcases hpf01 with h0 | h1
  · -- padding flag clear: the padding check cannot fail
    simp only [Ouro.Rtp.finish, h0, Nat.mul_zero, Nat.add_zero, Nat.sub_zero]
    rw [if_neg (by omega)]
    constructor
    · constructor
      · intro he; exact absurd he (by simp)
      · rintro ⟨h1', -, -⟩; omega
    · intro hm hle
      subst hm
      refine ⟨_, rfl, by simp, ?_⟩
      simp only [Nat.mul_zero, Nat.sub_zero, List.length_take, List.length_drop]
      omega
  · -- padding flag set: pad_len is the last byte
    simp only [Ouro.Rtp.finish, h1, Nat.mul_one]
    by_cases hcond : slice.length < info.off + slice.getD (slice.length - 1) 0
    · rw [if_pos hcond]
      constructor
      · constructor
        · intro he
          have hme : slice.getD (slice.length - 1) 0 = m := by
            simpa using he
          exact ⟨trivial, hme.symm, by omega⟩
        · rintro ⟨-, hm, hlt⟩
          rw [hm]
      · rintro hm hle
        omega
    · rw [if_neg hcond]
      constructor
      · constructor
        · intro he; exact absurd he (by simp)
        · rintro ⟨-, hm, hlt⟩; omega
      · intro hm hle
        subst hm
        refine ⟨_, rfl, rfl, ?_⟩
        simp only [List.length_take, List.length_drop]
        omega

/-- Claim C10: on any buffer that passes every check before padding handling,
has the padding flag set, and whose last byte is 0, decode succeeds, removes
no trailing bytes, and the payload extends to the end of the buffer. -/
theorem rtp_from_slice_zero_padding_ok (slice : List Nat) (info : Ouro.Rtp.RtpPre)
    (hpre : Ouro.Rtp.preParse slice = .ok info) (hpf : info.pad_flag = 1)
    (hlast : slice.getD (slice.length - 1) 0 = 0) :
    ∃ p, Ouro.Rtp.from_slice slice = .ok p ∧ p.payload = slice.drop info.off ∧
      p.payload.length = slice.length - info.off := by
  obtain ⟨h12, hoff, -⟩ := Ouro.preParse_ok_facts slice info hpre
  have hfs : Ouro.Rtp.from_slice slice = Ouro.Rtp.finish slice info := by
    unfold Ouro.Rtp.from_slice; rw [hpre]
  rw [hfs]
  simp only [Ouro.Rtp.finish, hlast, hpf, Nat.mul_one, Nat.zero_mul,
    Nat.add_zero, Nat.sub_zero]
  rw [if_neg (by omega)]
  refine ⟨_, rfl, ?_, ?_⟩
  · exact List.take_of_length_le (by rw [List.length_drop])
  · simp only [List.length_take, List.length_drop]
    omega

/-- Claim C5: for any legal field tuple, building an RTP packet with
`RtpPacket::new`, encoding it to wire bytes (spec-modelled serializer) and
decoding those bytes with `RtpPacket::from_slice` returns exactly the
constructed packet: identical marker, payload type, sequence number,
timestamp, SSRC and payload bytes. -/
theorem rtp_construct_encode_decode_roundtrip (mark : Bool) (pt seq ts ssrc : Nat)
    (payload : List Nat) (hpt : pt ≤ 127) (hseq : seq < 65536)
    (hts : ts < 4294967296) (hssrc : ssrc < 4294967296) :
    Ouro.Rtp.from_slice (Ouro.Rtp.encode (Ouro.Rtp.RtpPacket.new mark pt seq ts ssrc payload)) =
      .ok (Ouro.Rtp.RtpPacket.new mark pt seq ts ssrc payload) := by
  have hb : ∀ y < 128, y &&& 127 = y ∧ (128 + y) &&& 127 = y ∧ y &&& 128 = 0 ∧
      (128 + y) &&& 128 = 128 := by decide
  have hseq2 : Ouro.be16 (seq / 256 % 256) (seq % 256) = seq := by
    simp only [Ouro.be16]; omega
  have hts2 : Ouro.be32 (ts / 16777216 % 256) (ts / 65536 % 256) (ts / 256 % 256)
      (ts % 256) = ts := by
    simp only [Ouro.be32]; omega
  have hssrc2 : Ouro.be32 (ssrc / 16777216 % 256) (ssrc / 65536 % 256) (ssrc / 256 % 256)
      (ssrc % 256) = ssrc := by
    simp only [Ouro.be32]; omega
  cases mark
  · obtain ⟨ha, -, hc, -⟩ := hb pt (by omega)
    simp only [Ouro.Rtp.encode, Ouro.Rtp.RtpPacket.new, cond_false, Nat.zero_add]
    rw [Ouro.Rtp.from_slice_simple]
    simp [Ouro.Rtp.RtpPacket.new, ha, hc, hseq2, hts2, hssrc2]
  · obtain ⟨-, hb2, -, hd⟩ := hb pt (by omega)
    simp only [Ouro.Rtp.encode, Ouro.Rtp.RtpPacket.new, cond_true]
    rw [Ouro.Rtp.from_slice_simple]
    simp [Ouro.Rtp.RtpPacket.new, hb2, hd, hseq2, hts2, hssrc2]

/-- Witness instantiating the padding-exactness theorem on a concrete
12-byte buffer with the padding flag set whose declared padding (2) exceeds
the 0 bytes remaining after the header. -/
theorem rtp_from_slice_padding_exactness_witness :
    Ouro.Rtp.preParse [160, 0, 0, 0, 0, 0, 0, 0, 0, 0, 0, 2] =
      .ok ⟨0, 1, List.replicate 15 0, 12, none⟩ ∧
    ((Ouro.Rtp.from_slice [160, 0, 0, 0, 0, 0, 0, 0, 0, 0, 0, 2] =
        .err (.InvalidPadding 2) ↔ (1 = 1 ∧ 2 = 2 ∧ 0 < 2)) ∧
      (2 = 2 * 1 → 2 ≤ 0 →
        ∃ p, Ouro.Rtp.from_slice [160, 0, 0, 0, 0, 0, 0, 0, 0, 0, 0, 2] = .ok p ∧
          p.payload = ([] : List Nat) ∧ p.payload.length = 0)) :=
  ⟨by decide,
    rtp_from_slice_padding_exactness [160, 0, 0, 0, 0, 0, 0, 0, 0, 0, 0, 2]
      ⟨0, 1, List.replicate 15 0, 12, none⟩ 2 (by decide)⟩

/-- Witness instantiating the zero-padding theorem on a concrete 12-byte
buffer with the padding flag set and last byte 0. -/
theorem rtp_from_slice_zero_padding_ok_witness :
    Ouro.Rtp.preParse [160, 0, 0, 0, 0, 0, 0, 0, 0, 0, 0, 0] =
      .ok ⟨0, 1, List.replicate 15 0, 12, none⟩ ∧
    (∃ p, Ouro.Rtp.from_slice [160, 0, 0, 0, 0, 0, 0, 0, 0, 0, 0, 0] = .ok p ∧
      p.payload = ([] : List Nat) ∧ p.payload.length = 0) :=
  ⟨by decide,
    rtp_from_slice_zero_padding_ok [160, 0, 0, 0, 0, 0, 0, 0, 0, 0, 0, 0]
      ⟨0, 1, List.replicate 15 0, 12, none⟩ (by decide) (by decide) (by decide)⟩

/-- Witness instantiating the round-trip theorem at a concrete legal field
tuple. -/
theorem rtp_construct_encode_decode_roundtrip_witness :
    (96 ≤ 127 ∧ 27023 < 65536 ∧ 3653407706 < 4294967296 ∧
      476325762 < 4294967296) ∧
    Ouro.Rtp.from_slice (Ouro.Rtp.encode
        (Ouro.Rtp.RtpPacket.new true 96 27023 3653407706 476325762 [1, 2, 3])) =
      .ok (Ouro.Rtp.RtpPacket.new true 96 27023 3653407706 476325762 [1, 2, 3]) :=
  ⟨⟨by decide, by decide, by decide, by decide⟩,
    rtp_construct_encode_decode_roundtrip true 96 27023 3653407706 476325762
      [1, 2, 3] (by decide) (by decide) (by decide) (by decide)⟩

/-- Claim C4 (amended): for every Packetizer with `mtu ≥ 13`, every payload
(including the empty payload) and every frame duration, `packetize` never
fails: it returns exactly `ceil(payload.length / (mtu - 12))` packets, and a
zero-length payload yields zero packets.  (At `mtu = 12` exactly the source
divides by zero; see the counterexample.) -/
theorem rtp_packetize_total_above_header (st : Ouro.Rtp.RtpPacketizer)
    (payload : List Nat) (frames : Nat) (hmtu : 12 < st.mtu) :
    ∃ r, Ouro.Rtp.packetize st payload frames = some r ∧
      r.1.length = (payload.length + (st.mtu - 12) - 1) / (st.mtu - 12) ∧
      (payload.length = 0 → r.1 = []) := by
  have hcs : ¬ (st.mtu - 12 = 0) := by omega
  obtain ⟨gl, -, -⟩ := Ouro.Rtp.packetizeGo_spec payload st.payload_type
    ((st.timestamp + frames) % 4294967296) st.ssrc (st.mtu - 12)
    ((payload.length + (st.mtu - 12) - 1) / (st.mtu - 12))
    ((payload.length + (st.mtu - 12) - 1) / (st.mtu - 12)) 0 st.seq_number
    (by omega)
  rw [Nat.sub_zero] at gl
  simp only [Ouro.Rtp.packetize, Ouro.Rtp.HEADER_SIZE]
  rw [if_neg hcs]
  refine ⟨_, rfl, gl, ?_⟩
  intro h0
  refine List.eq_nil_of_length_eq_zero ?_
  rw [gl, h0]
  exact Nat.div_eq_of_lt (by omega)

/-- Witness instantiating the packetizer totality theorem at `mtu = 100`
with a 128-byte payload (the source's own test scenario: two packets). -/
theorem rtp_packetize_total_above_header_witness :
    12 < 100 ∧
    (∃ r, Ouro.Rtp.packetize ⟨100, 98, 5, 7, 9⟩ (List.replicate 128 3) 2000 = some r ∧
      r.1.length = (128 + (100 - 12) - 1) / (100 - 12) ∧
      (128 = 0 → r.1 = [])) :=
  ⟨by decide,
    rtp_packetize_total_above_header ⟨100, 98, 5, 7, 9⟩ (List.replicate 128 3)
      2000 (by decide)⟩

/-- Claim C7: across any successful sequence of `packetize` calls on one
instance, the `n`-th emitted packet (in chunk-and-call order) carries
sequence number `seq_number + n + 1` modulo 65536 — strictly increasing by 1
with no repeats until wraparound, independent of chunk and call boundaries —
and within each call the packets carry the payload chunks in order, with the
marker exactly on the last packet of the call. -/
theorem rtp_packetizer_monotonicity (st : Ouro.Rtp.RtpPacketizer)
    (inputs : List (List Nat × Nat)) (ps : List Ouro.Rtp.RtpPacket)
    (st2 : Ouro.Rtp.RtpPacketizer)
    (hrun : Ouro.Rtp.packetizeRun st inputs = some (ps, st2)) :
    (∀ n (hn : n < ps.length),
      (ps.get ⟨n, hn⟩).seq_number = (st.seq_number + n + 1) % 65536) ∧
    (∀ n m (hn : n < ps.length) (hm : m < ps.length), n < m → m - n < 65536 →
      (ps.get ⟨n, hn⟩).seq_number ≠ (ps.get ⟨m, hm⟩).seq_number) ∧
    (∀ (stc : Ouro.Rtp.RtpPacketizer) (payload : List Nat) (frames : Nat)
      (qs : List Ouro.Rtp.RtpPacket) (stc2 : Ouro.Rtp.RtpPacketizer),
      Ouro.Rtp.packetize stc payload frames = some (qs, stc2) →
      ∀ i (hi : i < qs.length),
        (qs.get ⟨i, hi⟩).mark = (i == qs.length - 1) ∧
        (qs.get ⟨i, hi⟩).payload = (payload.drop ((stc.mtu - 12) * i)).take
          (min (stc.mtu - 12) (payload.length - (stc.mtu - 12) * i))) := by
  obtain ⟨rget, -⟩ := Ouro.Rtp.packetizeRun_spec inputs st ps st2 hrun
  have hseqat : ∀ n (hn : n < ps.length),
      (ps.get ⟨n, hn⟩).seq_number = (st.seq_number + n + 1) % 65536 := by
    intro n hn
    obtain ⟨p, hp1, hp2⟩ := rget n hn
    have h3 : ps[n]? = some (ps.get ⟨n, hn⟩) := by
      rw [List.getElem?_eq_getElem hn]; simp
    have h4 : ps.get ⟨n, hn⟩ = p := Option.some.inj (h3.symm.trans hp1)
    rw [h4]
    exact hp2
  refine ⟨hseqat, ?_, ?_⟩
  · intro n m hn hm hnm hlt
    rw [hseqat n hn, hseqat m hm]
    omega
  · intro stc payload frames qs stc2 hp i hi
    obtain ⟨-, gget, -, -, -, -, -⟩ :=
      Ouro.Rtp.packetize_spec stc payload frames qs stc2 hp
    have h3 : qs[i]? = some (qs.get ⟨i, hi⟩) := by
      rw [List.getElem?_eq_getElem hi]; simp
    have h5 : qs.get ⟨i, hi⟩ = Ouro.Rtp.RtpPacket.new (i == qs.length - 1)
        stc.payload_type ((stc.seq_number + i + 1) % 65536)
        ((stc.timestamp + frames) % 4294967296) stc.ssrc
        ((payload.drop ((stc.mtu - 12) * i)).take
          (min (stc.mtu - 12) (payload.length - (stc.mtu - 12) * i))) :=
      Option.some.inj (h3.symm.trans (gget i hi))
    rw [h5]
    exact ⟨rfl, rfl⟩

/-- Witness instantiating the monotonicity theorem on a one-call run
(`mtu = 13`, one-byte payload, initial sequence number 10) that emits a
single marked packet with sequence number 11. -/
theorem rtp_packetizer_monotonicity_witness :
    Ouro.Rtp.packetizeRun ⟨13, 7, 10, 20, 3⟩ [([5], 1)] =
      some ([Ouro.Rtp.RtpPacket.new true 7 11 21 3 [5]], ⟨13, 7, 11, 21, 3⟩) ∧
    ((∀ n (hn : n < [Ouro.Rtp.RtpPacket.new true 7 11 21 3 [5]].length),
        ([Ouro.Rtp.RtpPacket.new true 7 11 21 3 [5]].get ⟨n, hn⟩).seq_number =
          (10 + n + 1) % 65536) ∧
      (∀ n m (hn : n < [Ouro.Rtp.RtpPacket.new true 7 11 21 3 [5]].length)
          (hm : m < [Ouro.Rtp.RtpPacket.new true 7 11 21 3 [5]].length),
        n < m → m - n < 65536 →
        ([Ouro.Rtp.RtpPacket.new true 7 11 21 3 [5]].get ⟨n, hn⟩).seq_number ≠
          ([Ouro.Rtp.RtpPacket.new true 7 11 21 3 [5]].get ⟨m, hm⟩).seq_number) ∧
      (∀ (stc : Ouro.Rtp.RtpPacketizer) (payload : List Nat) (frames : Nat)
          (qs : List Ouro.Rtp.RtpPacket) (stc2 : Ouro.Rtp.RtpPacketizer),
        Ouro.Rtp.packetize stc payload frames = some (qs, stc2) →
        ∀ i (hi : i < qs.length),
          (qs.get ⟨i, hi⟩).mark = (i == qs.length - 1) ∧
          (qs.get ⟨i, hi⟩).payload = (payload.drop ((stc.mtu - 12) * i)).take
            (min (stc.mtu - 12) (payload.length - (stc.mtu - 12) * i)))) :=
  ⟨by decide, rtp_packetizer_monotonicity ⟨13, 7, 10, 20, 3⟩ [([5], 1)]
    [Ouro.Rtp.RtpPacket.new true 7 11 21 3 [5]] ⟨13, 7, 11, 21, 3⟩ (by decide)⟩

